import Mathlib

/-!
Shallow embedding of the rbittorrent download core: wire codec
(`src/message/mod.rs`, `request.rs`, `handshake.rs`, `bitfield.rs`), the
peer worker state machine (`src/peer.rs`) and the orchestrator's cache
concatenation (`src/torrent.rs`).

Machine integers (`u8`, `u32`) are modelled as `Nat`, with `< 2^32` and
`< 256` bounds as explicit hypotheses where overflow matters.  Rust code
that can panic (`unwrap`, `unreachable!`, `todo!`, out-of-range index,
failed `assert!`) is modelled with `Option`/dedicated `panic` outcomes:
`none` / `panic` means the Rust code panics on that input.  Fallible I/O
(socket writes) is modelled by an explicit oracle carried in the peer
state; the byte stream read by `Message::from_stream` is modelled as a
list of bytes, and the worker's read loop as a function of the script of
`from_stream` results.
-/

namespace Rbit

/-- `u32::to_be_bytes` (value assumed `< 2^32`, as on a Rust `u32`). -/
def u32ToBe (n : Nat) : List Nat :=
  [n / 2 ^ 24 % 256, n / 2 ^ 16 % 256, n / 2 ^ 8 % 256, n % 256]

/-- `u32::from_be_bytes` over a 4-byte (or longer, extra ignored) list. -/
def u32FromBe (l : List Nat) : Nat :=
  ((l.getD 0 0 * 256 + l.getD 1 0) * 256 + l.getD 2 0) * 256 + l.getD 3 0

/-- `src/message/bitfield.rs`: `pub struct Bitfield(Vec<u8>);` -/
structure Bitfield where
  buf : List Nat
deriving Repr, DecidableEq

namespace Bitfield

/-- `Bitfield::new(size)` — note the source allocates `size` bytes, not
`⌈size/8⌉`. -/
def new (size : Nat) : Bitfield := ⟨List.replicate size 0⟩

/-- `Bitfield::from(buf)`. -/
def fromBytes (buf : List Nat) : Bitfield := ⟨buf⟩

/-- `Bitfield::has_piece`: `self.0[byte_index] >> (7 - offset) & 1 != 0`.
`none` models the panic of the unchecked index `self.0[byte_index]`. -/
def has_piece (bf : Bitfield) (index : Nat) : Option Bool :=
  let byteIndex := index / 8
  let offset := index % 8
  if h : byteIndex < bf.buf.length then
    some (bf.buf.get ⟨byteIndex, h⟩ >>> (7 - offset) &&& 1 != 0)
  else
    none

/-- `Bitfield::set_piece`: `self.0[byte_index] |= 1 << (7 - offset)`.
`none` models the panic of the unchecked index. -/
def set_piece (bf : Bitfield) (index : Nat) : Option Bitfield :=
  let byteIndex := index / 8
  let offset := index % 8
  if byteIndex < bf.buf.length then
    some ⟨bf.buf.set byteIndex (bf.buf.getD byteIndex 0 ||| 1 <<< (7 - offset))⟩
  else
    none

/-- `Bitfield::len` (byte length of the backing buffer). -/
def len (bf : Bitfield) : Nat := bf.buf.length

end Bitfield

/-- `src/message/request.rs`: `pub struct Request`. -/
structure Request where
  index : Nat
  begin : Nat
  length : Nat
deriving Repr, DecidableEq

namespace Request

/-- `Request::new`. -/
def new (index begin length : Nat) : Request := ⟨index, begin, length⟩

/-- `Request::as_bytes`: `put_u32(13); put_u8(6); put_u32(index);
put_u32(begin); put_u32(length)`. -/
def as_bytes (r : Request) : List Nat :=
  u32ToBe 13 ++ [6] ++ u32ToBe r.index ++ u32ToBe r.begin ++ u32ToBe r.length

/-- `Request::from_bytes`: asserts `buf.len() == 12` (panic → `none`),
then three big-endian `u32` reads. -/
def from_bytes (buf : List Nat) : Option Request :=
  if buf.length = 12 then
    some ⟨u32FromBe (buf.take 4), u32FromBe ((buf.drop 4).take 4),
          u32FromBe ((buf.drop 8).take 4)⟩
  else
    none

end Request

/-- `src/message/request.rs`: `pub struct Piece`. -/
structure Piece where
  index : Nat
  begin : Nat
  piece : List Nat
deriving Repr, DecidableEq

namespace Piece

/-- `Piece::from_bytes`: reads `buf[..4]`, `buf[4..8]` (slicing panics when
`buf.len() < 8` → `none`), body is `buf[8..]`. -/
def from_bytes (buf : List Nat) : Option Piece :=
  if 8 ≤ buf.length then
    some ⟨u32FromBe (buf.take 4), u32FromBe ((buf.drop 4).take 4), buf.drop 8⟩
  else
    none

end Piece

/-- `src/message/request.rs`: `pub struct Cancel`. -/
structure Cancel where
  index : Nat
  begin : Nat
  length : Nat
deriving Repr, DecidableEq

namespace Cancel

/-- `Cancel::from_bytes`: asserts `buf.len() == 12`. -/
def from_bytes (buf : List Nat) : Option Cancel :=
  if buf.length = 12 then
    some ⟨u32FromBe (buf.take 4), u32FromBe ((buf.drop 4).take 4),
          u32FromBe ((buf.drop 8).take 4)⟩
  else
    none

end Cancel

/-- The 19 ASCII bytes of `"BitTorrent protocol"`. -/
def protocolBytes : List Nat :=
  [66, 105, 116, 84, 111, 114, 114, 101, 110, 116, 32,
   112, 114, 111, 116, 111, 99, 111, 108]

/-- `src/message/handshake.rs`: `pub struct HandShake`. -/
structure HandShake where
  info_hash : List Nat
  peer_id : List Nat
deriving Repr, DecidableEq

namespace HandShake

/-- `HandShake::as_bytes`: `[19] ++ "BitTorrent protocol" ++ [0;8] ++
info_hash ++ peer_id`. -/
def as_bytes (h : HandShake) : List Nat :=
  19 :: protocolBytes ++ List.replicate 8 0 ++ h.info_hash ++ h.peer_id

/-- `HandShake::from_bytes`: asserts `buf.len() >= 68`, `buf[0] == 19`,
`buf[1..20] == b"BitTorrent protocol"` (failed assert → `none`), then reads
`buf[28..48]` and `buf[48..68]`. -/
def from_bytes (buf : List Nat) : Option HandShake :=
  if 68 ≤ buf.length ∧ buf.getD 0 0 = 19 ∧ (buf.drop 1).take 19 = protocolBytes then
    some ⟨(buf.drop 28).take 20, (buf.drop 48).take 20⟩
  else
    none

end HandShake

/-- `src/message/mod.rs`: `pub enum Message`.  The source's `Have` variant
carries a single `u8` (`Have(u8)`), not a `u32`. -/
inductive Message where
  | choke
  | unChoke
  | interested
  | notInterested
  | haveMsg (b : Nat)
  | bitfield (bf : Bitfield)
  | request (r : Request)
  | piece (p : Piece)
  | cancel (c : Cancel)
  | keepAlive
  | handShake (h : HandShake)
deriving Repr, DecidableEq

/-- `src/message/mod.rs`: `pub enum MessageError` — the only read-error
kinds the codec distinguishes. -/
inductive MessageError where
  | timeout
  | readError
  | handShakeError
deriving Repr, DecidableEq

namespace Message

/-- `Message::from(buf)`: empty body is `KeepAlive`; otherwise dispatch on
the tag byte `buf[0]`; tags above 8 hit `unreachable!()` (panic → `none`);
`Have` reads only `buf[1]` (panic when absent). -/
def fromBuf (buf : List Nat) : Option Message :=
  match buf with
  | [] => some .keepAlive
  | b :: rest =>
    match b with
    | 0 => some .choke
    | 1 => some .unChoke
    | 2 => some .interested
    | 3 => some .notInterested
    | 4 =>
      match rest with
      | r :: _ => some (.haveMsg r)
      | [] => none
    | 5 => some (.bitfield (Bitfield.fromBytes rest))
    | 6 => (Request.from_bytes rest).map .request
    | 7 => (Piece.from_bytes rest).map .piece
    | 8 => (Cancel.from_bytes rest).map .cancel
    | _ => none

/-- `Message::as_u8`: the wire tag; `unreachable!()` for `KeepAlive` and
`HandShake` (→ `none`). -/
def as_u8 : Message → Option Nat
  | .choke => some 0
  | .unChoke => some 1
  | .interested => some 2
  | .notInterested => some 3
  | .haveMsg _ => some 4
  | .bitfield _ => some 5
  | .request _ => some 6
  | .piece _ => some 7
  | .cancel _ => some 8
  | _ => none

end Message

/-- `src/message/mod.rs`: `fn no_body_message(code)` — 4-byte big-endian
length prefix `1` followed by the tag byte. -/
def no_body_message (code : Nat) : List Nat := u32ToBe 1 ++ [code]

namespace Message

/-- `Message::as_bytes`: full outgoing frame.  `KeepAlive` serializes to
the EMPTY byte vector in the source (`vec![]`), and the variants hitting
`todo!()` (`Have`, `Bitfield`, `Piece`, `Cancel`) panic (→ `none`). -/
def as_bytes : Message → Option (List Nat)
  | .handShake h => some h.as_bytes
  | .keepAlive => some []
  | .choke => (as_u8 .choke).map no_body_message
  | .unChoke => (as_u8 .unChoke).map no_body_message
  | .interested => (as_u8 .interested).map no_body_message
  | .notInterested => (as_u8 .notInterested).map no_body_message
  | .request r => some r.as_bytes
  | _ => none

/-- `Message::from_stream`, as a pure function of the pending input bytes.
Reads a 4-byte prefix; if it is `19, 'B', 'i', 't'` reads 64 more bytes and
decodes a handshake, else treats it as a big-endian length and decodes the
body with `Message::from`.  Returns the decoded message and the unconsumed
input; `none` models a blocked/short read (the 3-second timeout path) or a
decoder panic. -/
def from_stream (input : List Nat) : Option (Message × List Nat) :=
  match input with
  | b0 :: b1 :: b2 :: b3 :: rest =>
    if b0 = 19 ∧ b1 = 66 ∧ b2 = 105 ∧ b3 = 116 then
      if 64 ≤ rest.length then
        (HandShake.from_bytes (b0 :: b1 :: b2 :: b3 :: rest.take 64)).map
          (fun h => (.handShake h, rest.drop 64))
      else none
    else
      let length := u32FromBe [b0, b1, b2, b3]
      if length ≤ rest.length then
        (fromBuf (rest.take length)).map (fun m => (m, rest.drop length))
      else none
  | _ => none

end Message

/-- `src/task.rs`: `pub struct Task`. -/
structure Task where
  index : Nat
  piece_length : Nat
  piece_hash : List Nat
deriving Repr, DecidableEq

/-- `src/peer.rs`: `pub enum PeerState`. -/
inductive PeerState where
  | preparing
  | busy
deriving Repr, DecidableEq

/-- `src/peer.rs`: `enum PeerEvent`. -/
inductive PeerEvent where
  | cont
  | exit
deriving Repr, DecidableEq

/-- The filesystem, as a map from path to file contents. -/
abbrev Fs := List (String × List Nat)

/-- Opening a file for reading: `none` when the path does not exist. -/
def fsRead (fs : Fs) (path : String) : Option (List Nat) :=
  (fs.find? (fun e => e.1 == path)).map (·.2)

/-- Open with `.create(true).append(true)` and write `bytes`. -/
def fsAppend (fs : Fs) (path : String) (bytes : List Nat) : Fs :=
  match fs with
  | [] => [(path, bytes)]
  | e :: rest =>
    if e.1 == path then (e.1, e.2 ++ bytes) :: rest else e :: fsAppend rest path bytes

/-- `Peer::save_pieces` cache path:
`PathBuf::from(name).join(format!("{}-cache-{}", name, index))`, i.e.
`{name}/{name}-cache-{index}`. -/
def save_cache_path (name : String) (index : Nat) : String :=
  name ++ "/" ++ (name ++ "-cache-" ++ toString index)

/-- `TorrentClient::concat_cache` cache path:
`PathBuf::from(format!("{}-cache-{}", name, index))`, i.e.
`{name}-cache-{index}` with NO directory component. -/
def concat_cache_path (name : String) (index : Nat) : String :=
  name ++ "-cache-" ++ toString index

/-- `TorrentClient::piece_num`: `length / piece_length`. -/
def piece_num (length piece_length : Nat) : Nat := length / piece_length

/-- `TorrentClient::concat_cache`: over ascending `index ∈ [0, piece_num)`,
open `{name}-cache-{index}`, skip it when missing (`filter(is_file)`), and
append its bytes to the output.  Returns the final output file contents. -/
def concat_cache (fs : Fs) (name : String) (pieceNum : Nat) : List Nat :=
  (List.range pieceNum).foldl
    (fun acc index =>
      match fsRead fs (concat_cache_path name index) with
      | none => acc
      | some bytes => acc ++ bytes)
    []

/-- `src/peer.rs`: `pub struct Peer`, restricted to the fields the protocol
logic reads or writes.  The TCP socket is replaced by `sent` (frames
successfully written) and `writeOk` (oracle: outcome of each upcoming
write, later writes defaulting to success); `pb.inc` by the `progress`
counter. -/
structure PeerS where
  state : PeerState
  id : Option (List Nat)
  bitfield : Option Bitfield
  queue : List Task
  currentTask : Option Task
  name : String
  received : List Piece
  fs : Fs
  sent : List (List Nat)
  writeOk : List Bool
  progress : Nat
deriving Repr

/-- `BLOCK_SIZE = 2^14`. -/
def BLOCK_SIZE : Nat := 2 ^ 14

/-- Result of one dispatched message (`Result<PeerEvent>` plus panics):
`cont`/`exit` are `Ok(Continue)`/`Ok(Exit)`, `fail` is `Err(_)` (peer state
at the failure point), `panic` a Rust panic, `spin` an unbounded number of
iterations of the bitfield skip loop (fuel exhausted). -/
inductive StepResult where
  | cont (p : PeerS)
  | exit (p : PeerS)
  | fail (p : PeerS)
  | panic
  | spin

/-- Result of `Peer::send_message`: `panicked` when `as_bytes` hits
`todo!()`, `failed` when the socket write fails (oracle). -/
inductive SendRes where
  | sent (p : PeerS)
  | failed (p : PeerS)
  | panicked

/-- `Peer::send_message`: serialize and write the frame. -/
def send_message (p : PeerS) (m : Message) : SendRes :=
  match Message.as_bytes m with
  | none => .panicked
  | some bytes =>
    match p.writeOk with
    | [] => .sent { p with sent := p.sent ++ [bytes] }
    | b :: rest =>
      if b then .sent { p with sent := p.sent ++ [bytes], writeOk := rest }
      else .failed { p with writeOk := rest }

/-- `Peer::has_piece`: `self.bitfield.as_ref().unwrap().has_piece(index)` —
`none` when the `unwrap` or the bitfield index panics. -/
def peer_has_piece (p : PeerS) (index : Nat) : Option Bool :=
  p.bitfield.bind (fun bf => bf.has_piece index)

/-- `Peer::is_current_task_done`:
`Some(received_pieces.len() * BLOCK_SIZE >= piece_length)` when a task is
held. -/
def is_current_task_done (p : PeerS) : Option Bool :=
  p.currentTask.map (fun t => decide (t.piece_length ≤ p.received.length * BLOCK_SIZE))

/-- `Peer::fetch_task`: pop the queue head; empty queue → `Exit` with the
peer unchanged (`current_task` keeps its previous value). -/
def fetch_task (p : PeerS) : PeerS × PeerEvent :=
  match p.queue with
  | [] => (p, .exit)
  | t :: rest => ({ p with queue := rest, currentTask := some t }, .cont)

/-- `Peer::put_task_back`: take the held task (`unwrap` → `none` when no
task) and push it to the queue tail. -/
def put_task_back (p : PeerS) : Option PeerS :=
  p.currentTask.map (fun t => { p with currentTask := none, queue := p.queue ++ [t] })

/-- Insertion step of `sort_by_key(|piece| piece.begin)`. -/
def insert_piece (pc : Piece) : List Piece → List Piece
  | [] => [pc]
  | q :: rest => if q.begin ≤ pc.begin then q :: insert_piece pc rest else pc :: q :: rest

/-- `received_pieces` sorted by ascending `begin`. -/
def sort_pieces : List Piece → List Piece
  | [] => []
  | pc :: rest => insert_piece pc (sort_pieces rest)

/-- `Peer::save_pieces`: drain the accumulated blocks, sort by `begin`,
append their bytes to `{name}/{name}-cache-{index}` (append mode, created
if missing); `none` when the `current_task` `unwrap` panics. -/
def save_pieces (p : PeerS) : Option PeerS :=
  p.currentTask.map (fun t =>
    let pieces := sort_pieces p.received
    let bytes := pieces.foldl (fun acc pc => acc ++ pc.piece) []
    { p with received := [],
             fs := fsAppend p.fs (save_cache_path p.name t.index) bytes })

/-- `Peer::check_sum`: read the cache file back, SHA-1 it, compare with
`piece_hash`.  `some false` covers both error paths of the Rust `Result`
(file unreadable, hash mismatch — the caller treats both alike); `none`
when the `current_task` `unwrap` panics.  SHA-1 itself is the external
`sha1` crate, taken as a parameter. -/
def check_sum (sha1 : List Nat → List Nat) (p : PeerS) : Option Bool :=
  p.currentTask.map (fun t =>
    match fsRead p.fs (save_cache_path p.name t.index) with
    | none => false
    | some bytes => sha1 bytes == t.piece_hash)

/-- Outcome of `Peer::request_piece` (a `Result<()>` plus panics). -/
inductive IoRes where
  | ok (p : PeerS)
  | wfail (p : PeerS)
  | panicked

/-- The `while offset < piece_length / BLOCK_SIZE` loop of
`Peer::request_piece`: send `Request{index, offset*BLOCK_SIZE, BLOCK_SIZE}`
and increment `offset`. -/
def request_piece_loop (index plen offset : Nat) (p : PeerS) : IoRes :=
  if offset < plen / BLOCK_SIZE then
    match send_message p (.request (Request.new index (offset * BLOCK_SIZE) BLOCK_SIZE)) with
    | .panicked => .panicked
    | .failed p1 => .wfail p1
    | .sent p1 => request_piece_loop index plen (offset + 1) p1
  else .ok p
termination_by plen / BLOCK_SIZE - offset

/-- `Peer::request_piece`: `unwrap`s the current task, then the request
loop. -/
def request_piece (p : PeerS) : IoRes :=
  match p.currentTask with
  | none => .panicked
  | some t => request_piece_loop t.index t.piece_length 0 p

/-- `Peer::try_fetch_task`.  Note two source quirks kept faithfully: the
`PeerEvent` of the inner `self.fetch_task()?` after a completed piece is
DISCARDED (`Ok(Exit)` does not propagate), and on a checksum failure the
task is pushed back before fetching the next one. -/
def try_fetch_task (sha1 : List Nat → List Nat) (p : PeerS) : StepResult :=
  match is_current_task_done p with
  | none =>
    let (p1, ev) := fetch_task p
    match ev with
    | .exit => .exit p1
    | .cont => .cont p1
  | some false => .cont p
  | some true =>
    match save_pieces p with
    | none => .panic
    | some p1 =>
      match check_sum sha1 p1 with
      | none => .panic
      | some ok =>
        match (if ok then some p1 else put_task_back p1) with
        | none => .panic
        | some p2 =>
          let (p3, _ev) := fetch_task p2
          match request_piece p3 with
          | .panicked => .panic
          | .wfail p4 => .fail p4
          | .ok p4 => .cont p4

/-- The `loop { ... }` inside the `Bitfield` arm of `Peer::process_msg`:
skip (push back, fetch next) every task the remote bitfield does not cover;
send `Interested` and stop at the first covered one.  `fuel` bounds the
iterations; `spin` = exhausted (the Rust loop may cycle forever). -/
def bitfield_loop (fuel : Nat) (p : PeerS) : StepResult :=
  match fuel with
  | 0 => .spin
  | fuel + 1 =>
    match p.currentTask with
    | none => .panic
    | some t =>
      match peer_has_piece p t.index with
      | none => .panic
      | some false =>
        match put_task_back p with
        | none => .panic
        | some p1 =>
          let (p2, _ev) := fetch_task p1
          bitfield_loop fuel p2
      | some true =>
        match send_message p .interested with
        | .panicked => .panic
        | .failed p1 => .fail p1
        | .sent p1 => .cont p1

/-- `Peer::process_msg`.  Source quirks kept faithfully: in the `Bitfield`
and `Piece` arms the `if let Ok(PeerEvent::Exit) = self.try_fetch_task()`
pattern SWALLOWS an `Err` from `try_fetch_task` (execution falls through);
in the `UnChoke` arm the state only becomes `Busy` after `request_piece`
succeeded. -/
def process_msg (fuel : Nat) (sha1 : List Nat → List Nat) (p : PeerS) (msg : Message) :
    StepResult :=
  match msg with
  | .handShake h =>
    let p1 := { p with id := some h.peer_id }
    match send_message p1 .unChoke with
    | .panicked => .panic
    | .failed p2 => .fail p2
    | .sent p2 => .cont p2
  | .bitfield bf =>
    let p1 := { p with bitfield := some bf }
    match try_fetch_task sha1 p1 with
    | .exit p2 => .exit p2
    | .panic => .panic
    | .spin => .spin
    | .cont p2 => bitfield_loop fuel p2
    | .fail p2 => bitfield_loop fuel p2
  | .piece pc =>
    let p1 := { p with progress := p.progress + pc.piece.length,
                       received := p.received ++ [pc] }
    match try_fetch_task sha1 p1 with
    | .exit p2 => .exit p2
    | .panic => .panic
    | .spin => .spin
    | .cont p2 => .cont p2
    | .fail p2 => .cont p2
  | .unChoke =>
    if p.state = .busy then .cont p
    else
      match request_piece p with
      | .panicked => .panic
      | .wfail p1 => .fail p1
      | .ok p1 => .cont { p1 with state := .busy }
  | _ => .cont p

/-- One `Message::from_stream` outcome as seen by `Peer::read_message`:
a decoded message, a `MessageError`, or a panic inside the decoder. -/
inductive ReadRes where
  | ok (m : Message)
  | err (e : MessageError)
  | panicked

/-- `Peer::read_message`: `if let Ok(msg) = from_stream { process_msg }
else { Ok(Continue) }` — every `MessageError` is SWALLOWED and the loop
told to continue with the peer unchanged. -/
def read_message (fuel : Nat) (sha1 : List Nat → List Nat) (p : PeerS) (r : ReadRes) :
    StepResult :=
  match r with
  | .err _ => .cont p
  | .panicked => .panic
  | .ok msg => process_msg fuel sha1 p msg

/-- Result of the `loop` in `Peer::try_download` over a finite script of
reads: `finished` = broke at `Ok(Exit)`, `fatal` = broke at `Err(_)` (both
simply `break`; NOTHING else runs before the peer is dropped), `starve` =
script exhausted with the loop still running. -/
inductive LoopResult where
  | finished (p : PeerS)
  | fatal (p : PeerS)
  | starve (p : PeerS)
  | panicked
  | spun

/-- The read loop of `Peer::try_download`, driven by the script of
`from_stream` outcomes. -/
def download_loop (fuel : Nat) (sha1 : List Nat → List Nat) (p : PeerS) :
    List ReadRes → LoopResult
  | [] => .starve p
  | r :: rest =>
    match read_message fuel sha1 p r with
    | .cont p1 => download_loop fuel sha1 p1 rest
    | .exit p1 => .finished p1
    | .fail p1 => .fatal p1
    | .panic => .panicked
    | .spin => .spun


/-! ### Fixtures: concrete tasks, peers and messages used by the witnesses -/

/-- A concrete SHA-1 stand-in used only to instantiate the `sha1` parameter
of theorems whose conclusion does not depend on hash values. -/
def sha_stub : List Nat → List Nat := fun _ => List.replicate 20 0

/-- A task for piece 0 of a 16384-byte piece. -/
def taskA : Task := ⟨0, 16384, List.replicate 20 0⟩

/-- The handshake of spec scenario 2. -/
def hsA : HandShake := ⟨List.replicate 20 170, List.replicate 20 187⟩

/-- A peer holding `taskA` with an empty queue whose next socket write is
scheduled to fail. -/
def peerC2 : PeerS := ⟨.preparing, none, none, [], some taskA, "a", [], [], [], [false], 0⟩

/-- `peerC2` after the `HandShake` arm ran and its `UnChoke` reply write
failed: the remote id was recorded, the write oracle consumed, and the held
task neither delivered nor returned. -/
def peerC2x : PeerS := { peerC2 with id := some hsA.peer_id, writeOk := [] }

/-- A task for piece 3 spanning three blocks. -/
def taskC7 : Task := ⟨3, 49152, []⟩

/-- A peer holding `taskC7`, all writes succeeding. -/
def peerC7 : PeerS := ⟨.preparing, none, none, [], some taskC7, "a", [], [], [], [], 0⟩

/-- A task for piece 0 of a 16384-byte piece. -/
def taskC8 : Task := ⟨0, 16384, []⟩

/-- A peer holding `taskC8` with no accumulated blocks yet. -/
def peerC8 : PeerS := ⟨.preparing, none, none, [], some taskC8, "a", [], [], [], [], 0⟩

/-- A task for piece index 8 (bit 8 lives in byte 1 of a bitfield). -/
def taskC10 : Task := ⟨8, 16384, []⟩

/-- A fresh peer whose queue holds only `taskC10`. -/
def peerC10 : PeerS := ⟨.preparing, none, none, [taskC10], none, "a", [], [], [], [], 0⟩

/-- `peerC10` with the 1-byte remote bitfield recorded. -/
def peerC10x : PeerS := { peerC10 with bitfield := some (Bitfield.fromBytes [255]) }

/-- The serialized frame of the k-th block request of piece `index`:
`Request{index, k * BLOCK_SIZE, BLOCK_SIZE}.as_bytes`. -/
def request_frame (index k : Nat) : List Nat :=
  Request.as_bytes (Request.new index (k * BLOCK_SIZE) BLOCK_SIZE)

/-! ### Helper lemmas -/

theorem u32FromBe_u32ToBe (n : Nat) (h : n < 2 ^ 32) : u32FromBe (u32ToBe n) = n := by
  simp only [u32ToBe, u32FromBe, List.getD_cons_zero, List.getD_cons_succ]
  omega

/-! ### Claims -/

/-- C3: a `[0,0,0,0]` frame does decode to `KeepAlive`, but serializing
`KeepAlive` yields the EMPTY byte vector (`vec![]` in the source), not the
4-byte frame the claim states. -/
theorem C3_keepalive_serializes_empty :
    Message.as_bytes .keepAlive = some []
    ∧ (Message.as_bytes .keepAlive == some [0, 0, 0, 0]) = false := by
  constructor
  · rfl
  · decide

/-- C3 (amended): a frame whose bytes are `[0,0,0,0]` decodes to the
`KeepAlive` message, and serializing `KeepAlive` produces the empty byte
vector. -/
theorem C3_keepalive_decode_serialize :
    Message.from_stream [0, 0, 0, 0] = some (.keepAlive, [])
    ∧ Message.as_bytes .keepAlive = some [] := by
  constructor
  · decide
  · rfl

/-- C4: the decoder of a tag-4 (`Have`) frame does NOT read the body as a
big-endian `u32`; it stores only the FIRST body byte (`Have(buf[1])`,
i.e. the most significant byte of the index).  For the body encoding
`v = 5` it yields `Have 0`, not `Have 5`. -/
theorem C4_have_decodes_first_byte_only :
    Message.fromBuf (4 :: u32ToBe 5) = some (.haveMsg 0)
    ∧ (Message.fromBuf (4 :: u32ToBe 5) == some (.haveMsg 5)) = false
    ∧ (∀ v : Nat, Message.fromBuf (4 :: u32ToBe v) = some (.haveMsg (v / 2 ^ 24 % 256))) := by
  refine ⟨by decide, by decide, fun v => rfl⟩

/-- C5: `Request` round-trip: parsing the body (the bytes after the 4-byte
length prefix and the tag) of a serialized `Request{i, b, l}` yields the
same triple back; the frame is exactly 17 bytes; and
`Request{3, 32768, 16384}` serializes to the stated bytes. -/
theorem C5_request_roundtrip (i b l : Nat)
    (hi : i < 2 ^ 32) (hb : b < 2 ^ 32) (hl : l < 2 ^ 32) :
    Request.from_bytes ((Request.new i b l).as_bytes.drop 5) = some (Request.new i b l)
    ∧ (Request.new i b l).as_bytes.length = 17
    ∧ (Request.new 3 32768 16384).as_bytes
        = [0, 0, 0, 13, 6, 0, 0, 0, 3, 0, 0, 128, 0, 0, 0, 64, 0] := by
  refine ⟨?_, rfl, by decide⟩
  have h : Request.from_bytes ((Request.new i b l).as_bytes.drop 5)
      = some ⟨u32FromBe (u32ToBe i), u32FromBe (u32ToBe b), u32FromBe (u32ToBe l)⟩ := rfl
  rw [h, u32FromBe_u32ToBe i hi, u32FromBe_u32ToBe b hb, u32FromBe_u32ToBe l hl]
  rfl

/-- C5 witness: the round-trip theorem applied at `Request{3, 32768, 16384}`. -/
theorem C5_request_roundtrip_witness :
    Request.from_bytes ((Request.new 3 32768 16384).as_bytes.drop 5)
        = some (Request.new 3 32768 16384)
    ∧ (Request.new 3 32768 16384).as_bytes.length = 17
    ∧ (Request.new 3 32768 16384).as_bytes
        = [0, 0, 0, 13, 6, 0, 0, 0, 3, 0, 0, 128, 0, 0, 0, 64, 0] :=
  C5_request_roundtrip 3 32768 16384 (by decide) (by decide) (by decide)

/-- C9: for every non-empty message body whose tag byte is 9 or more the
decoder panics (`unreachable!`, modelled as `none`), and a whole frame
carrying such a body makes `from_stream` panic as well; `MessageError` has
no constructor for an unknown tag. -/
theorem C9_unknown_tag_panics (b : Nat) (rest : List Nat) (hb : 9 ≤ b) :
    Message.fromBuf (b :: rest) = none
    ∧ Message.from_stream [0, 0, 0, 1, 9] = none := by
  refine ⟨?_, by decide⟩
  obtain ⟨k, rfl⟩ : ∃ k, b = k + 9 := ⟨b - 9, by omega⟩
  rfl

/-- C9 witness: the unknown-tag theorem applied at tag 9 with an empty
remainder. -/
theorem C9_unknown_tag_panics_witness :
    Message.fromBuf [9] = none ∧ Message.from_stream [0, 0, 0, 1, 9] = none :=
  C9_unknown_tag_panics 9 [] (by decide)

/-- Bridge between the source's bit test `x >> k & 1 != 0` and `Nat.testBit`. -/
theorem shiftRight_and_one_eq_testBit (x k : Nat) : (x >>> k &&& 1 != 0) = x.testBit k := by
  unfold Nat.testBit
  rw [Nat.and_comm]

/-- C6: on a fresh `new(size)` bitfield every in-range bit reads `false`;
after `set_piece i` (whenever it does not panic) `has_piece i` reads
`true`; `has_piece` always equals the MSB-first bit formula
`(byte[i/8] >> (7 - i%8)) & 1 != 0`; and bits `{0, 7, 8, 11}` set on a
12-bit bitfield give backing bytes starting `[0x81, 0x90]`. -/
theorem C6_bitfield_bit_access :
    (∀ size i, i / 8 < size → Bitfield.has_piece (Bitfield.new size) i = some false)
    ∧ (∀ (bf bf2 : Bitfield) (i : Nat), bf.set_piece i = some bf2 →
        bf2.has_piece i = some true)
    ∧ (∀ (bf : Bitfield) (i : Nat) (h : i / 8 < bf.buf.length),
        bf.has_piece i = some (bf.buf.get ⟨i / 8, h⟩ >>> (7 - i % 8) &&& 1 != 0))
    ∧ ((((Bitfield.new 12).set_piece 0).bind (Bitfield.set_piece · 7)).bind
          (Bitfield.set_piece · 8)).bind (Bitfield.set_piece · 11)
        = some ⟨[129, 144, 0, 0, 0, 0, 0, 0, 0, 0, 0, 0]⟩ := by
  refine ⟨?_, ?_, ?_, by decide⟩
  · intro size i h
    have hl : i / 8 < (List.replicate size (0 : Nat)).length := by simpa using h
    simp [Bitfield.has_piece, Bitfield.new, hl, List.get_eq_getElem, h]
  · intro bf bf2 i hset
    simp only [Bitfield.set_piece] at hset
    split at hset
    case isTrue hcond =>
      obtain rfl : (⟨bf.buf.set (i / 8) (bf.buf.getD (i / 8) 0 ||| 1 <<< (7 - i % 8))⟩
          : Bitfield) = bf2 := by injection hset
      have hl : i / 8 < (bf.buf.set (i / 8)
          (bf.buf.getD (i / 8) 0 ||| 1 <<< (7 - i % 8))).length := by
        simpa using hcond
      simp only [Bitfield.has_piece, hl, dif_pos]
      simp only [List.get_eq_getElem, List.getElem_set_self]
      rw [shiftRight_and_one_eq_testBit, Nat.testBit_or, Nat.one_shiftLeft]
      simp [Nat.testBit_two_pow_self]
    case isFalse => cases hset
  · intro bf i h
    exact dif_pos h

/-- C6 witness: the bit-access theorem applied at `new(12)` bit 3, at a
one-byte bitfield set at bit 0, and at bit 8 of the `[0x81, 0x90]`
bitfield. -/
theorem C6_bitfield_bit_access_witness :
    Bitfield.has_piece (Bitfield.new 12) 3 = some false
    ∧ Bitfield.has_piece ⟨[128]⟩ 0 = some true
    ∧ Bitfield.has_piece ⟨[129, 144]⟩ 8
        = some ((⟨[129, 144]⟩ : Bitfield).buf.get ⟨8 / 8, by decide⟩ >>> (7 - 8 % 8) &&& 1 != 0) :=
  ⟨C6_bitfield_bit_access.1 12 3 (by decide),
   C6_bitfield_bit_access.2.1 ⟨[0]⟩ ⟨[128]⟩ 0 (by decide),
   C6_bitfield_bit_access.2.2.1 ⟨[129, 144]⟩ 8 (by decide)⟩

/-- C8: with a held task `t`, the piece is judged complete exactly when
`received_blocks * BLOCK_SIZE >= t.piece_length` and incomplete exactly
when it is below, with `BLOCK_SIZE = 16384`. -/
theorem C8_piece_completion (p : PeerS) (t : Task) (ht : p.currentTask = some t) :
    BLOCK_SIZE = 16384
    ∧ (is_current_task_done p = some true ↔ t.piece_length ≤ p.received.length * BLOCK_SIZE)
    ∧ (is_current_task_done p = some false ↔ p.received.length * BLOCK_SIZE < t.piece_length) := by
  refine ⟨rfl, ?_, ?_⟩ <;> simp [is_current_task_done, ht]

/-- C8 witness: the completion criterion applied to a peer holding a
16384-byte task with no blocks accumulated yet. -/
theorem C8_piece_completion_witness :
    BLOCK_SIZE = 16384
    ∧ (is_current_task_done peerC8 = some true
        ↔ taskC8.piece_length ≤ peerC8.received.length * BLOCK_SIZE)
    ∧ (is_current_task_done peerC8 = some false
        ↔ peerC8.received.length * BLOCK_SIZE < taskC8.piece_length) :=
  C8_piece_completion peerC8 taskC8 rfl

/-- The request loop with an all-success write oracle sends one `Request`
frame per remaining offset, in ascending order. -/
theorem request_piece_loop_all_ok (index plen : Nat) :
    ∀ (n offset : Nat) (p : PeerS), plen / BLOCK_SIZE - offset = n → p.writeOk = [] →
      request_piece_loop index plen offset p
        = .ok { p with sent := p.sent ++ (List.range' offset n).map (request_frame index) } := by
  intro n
  induction n with
  | zero =>
    intro offset p hn hw
    rw [request_piece_loop]
    have h : ¬ offset < plen / BLOCK_SIZE := by omega
    simp [h]
  | succ n ih =>
    intro offset p hn hw
    rw [request_piece_loop]
    have h : offset < plen / BLOCK_SIZE := by omega
    have hs : send_message p (.request (Request.new index (offset * BLOCK_SIZE) BLOCK_SIZE))
        = .sent { p with sent := p.sent ++ [request_frame index offset] } := by
      simp [send_message, Message.as_bytes, hw, request_frame]
    simp only [if_pos h, hs]
    rw [ih (offset + 1) _ (by omega) (by simpa using hw)]
    simp [List.range'_succ, List.append_assoc]

/-- C7: on entering `request_piece` for a held task `t` with no write
failure, the worker sends exactly `t.piece_length / BLOCK_SIZE` frames
back-to-back, the k-th being the serialization of
`Request{t.index, k * BLOCK_SIZE, BLOCK_SIZE}`, with `BLOCK_SIZE = 16384`. -/
theorem C7_request_batch (p : PeerS) (t : Task) (ht : p.currentTask = some t)
    (hw : p.writeOk = []) :
    BLOCK_SIZE = 16384
    ∧ request_piece p = .ok { p with sent := p.sent ++ (List.range (t.piece_length / BLOCK_SIZE)).map (request_frame t.index) } := by
  refine ⟨rfl, ?_⟩
  simp only [request_piece, ht]
  rw [request_piece_loop_all_ok t.index t.piece_length (t.piece_length / BLOCK_SIZE) 0 p
      rfl hw]
  rw [List.range_eq_range', ht]

/-- C7 witness: the batch theorem applied to a peer holding the 3-block
task `taskC7`. -/
theorem C7_request_batch_witness :
    BLOCK_SIZE = 16384
    ∧ request_piece peerC7 = .ok { peerC7 with sent := peerC7.sent ++ (List.range (taskC7.piece_length / BLOCK_SIZE)).map (request_frame taskC7.index) } :=
  C7_request_batch peerC7 taskC7 rfl rfl

/-- C2: read-side peer-fatal conditions (timeout, read error, malformed
handshake) are SWALLOWED by `read_message` — the loop continues, the
worker does not exit; and on a write-side fatal error the loop breaks
with the held task still in `current_task` and NOT pushed back onto the
queue: `peerC2` holds `taskA`, its `UnChoke` reply write fails, and the
final state still holds the task while the queue stays empty. -/
theorem C2_fatal_exit_drops_task :
    (∀ (fuel : Nat) (sha1 : List Nat → List Nat) (p : PeerS) (e : MessageError),
        read_message fuel sha1 p (.err e) = .cont p)
    ∧ (∀ sha1 : List Nat → List Nat,
        download_loop 9 sha1 peerC2 [.ok (.handShake hsA)] = .fatal peerC2x)
    ∧ peerC2x.currentTask = some taskA
    ∧ peerC2x.queue = [] :=
  ⟨fun _ _ _ _ => rfl, fun _ => rfl, rfl, rfl⟩

/-- C10: `has_piece` panics (unchecked index) whenever the backing buffer
is shorter than `i/8 + 1` bytes; the worker's `Peer::has_piece` inherits
the panic; and a remote 1-byte bitfield received while the queue holds a
task of index 8 drives `process_msg` into a panic, not an error exit. -/
theorem C10_short_bitfield_panics :
    (∀ (bf : Bitfield) (i : Nat), bf.buf.length ≤ i / 8 → bf.has_piece i = none)
    ∧ (∀ (p : PeerS) (bf : Bitfield) (i : Nat), p.bitfield = some bf →
        bf.buf.length ≤ i / 8 → peer_has_piece p i = none)
    ∧ (∀ (sha1 : List Nat → List Nat) (fuel : Nat),
        process_msg (fuel + 1) sha1 peerC10 (.bitfield (Bitfield.fromBytes [255])) = .panic) := by
  refine ⟨?_, ?_, fun _ _ => rfl⟩
  · intro bf i h
    simp only [Bitfield.has_piece]
    rw [dif_neg (by omega)]
  · intro p bf i hbf h
    simp only [peer_has_piece, hbf, Option.some_bind, Bitfield.has_piece]
    rw [dif_neg (by omega)]

/-- C10 witness: the panic theorem applied to the 1-byte bitfield at piece
index 8, and to `peerC10` receiving that bitfield. -/
theorem C10_short_bitfield_panics_witness :
    Bitfield.has_piece (Bitfield.fromBytes [255]) 8 = none
    ∧ peer_has_piece peerC10x 8 = none
    ∧ process_msg 1 sha_stub peerC10 (.bitfield (Bitfield.fromBytes [255])) = .panic :=
  ⟨C10_short_bitfield_panics.1 (Bitfield.fromBytes [255]) 8 (by decide),
   C10_short_bitfield_panics.2.1 peerC10x (Bitfield.fromBytes [255]) 8 rfl (by decide),
   C10_short_bitfield_panics.2.2 sha_stub 0⟩

/-- C1: the orchestrator's concat step opens `{name}-cache-{index}` while
the worker wrote `{name}/{name}-cache-{index}` — a strictly longer path
(by the directory prefix), so the two are never equal; concretely, with a
piece persisted by the worker at the save path, `concat_cache` finds no
file under its own path and produces an EMPTY output. -/
theorem C1_concat_opens_wrong_path :
    (∀ (name : String) (index : Nat),
        (save_cache_path name index).length
          = (concat_cache_path name index).length + name.length + 1)
    ∧ (concat_cache_path "a" 0 == save_cache_path "a" 0) = false
    ∧ fsRead (fsAppend [] (save_cache_path "a" 0) [1, 2, 3]) (save_cache_path "a" 0)
        = some [1, 2, 3]
    ∧ concat_cache (fsAppend [] (save_cache_path "a" 0) [1, 2, 3]) "a" 1 = [] := by
  refine ⟨?_, by decide, by decide, by decide⟩
  intro name index
  have h1 : ("/" : String).length = 1 := rfl
  have h2 : ("-cache-" : String).length = 7 := rfl
  simp only [save_cache_path, concat_cache_path, String.length_append, h1, h2]
  omega

end Rbit
